import Mathlib

/-!
Verification development for the inventory-management scan-and-restock core.

Shallow embedding of the repository code:
  - `ScannerService` (decodeScan, quickAdd, receiveInventory, batchScan, logScan)
    and `ProductService` (createProduct, getProductByBarcode) are translated from
    the TypeScript source.
  - `BarcodeDecoderService` (decode, normalize), `CacheService` (get / set /
    delete / deleteByPattern / increment / getOrSet) and the `Inventory` entity
    method `addStock` are not part of the provided source tree (only their
    callers are); those are modelled from the specification, as marked in the
    doc comments of the corresponding definitions.

State is threaded explicitly: every service operation maps a system state to a
new state, a trace of externally visible events, and either a result or a
raised error (`Except`).  JavaScript object aliasing of the in-memory
`Product.inventory` records is modelled by an explicit heap of inventory cells
referenced by index.
-/

namespace ScanCore

/-! ## Barcode codec (§4.2) — modelled from the spec, not in src/ -/

/-- ASCII decimal digit test. -/
def isDigitCh (c : Char) : Bool := 48 ≤ c.toNat && c.toNat ≤ 57

/-- ASCII lowercase letter test. -/
def isLowerCh (c : Char) : Bool := 97 ≤ c.toNat && c.toNat ≤ 122

/-- ASCII uppercase letter test. -/
def isUpperCh (c : Char) : Bool := 65 ≤ c.toNat && c.toNat ≤ 90

/-- Alphanumeric (ASCII) test: the characters normalization keeps. -/
def isAlnumCh (c : Char) : Bool := isDigitCh c || isLowerCh c || isUpperCh c

/-- Uppercasing of a single ASCII character. -/
def upCh (c : Char) : Char :=
  if isLowerCh c then Char.ofNat (c.toNat - 32) else c

/-- Strip non-alphanumeric separators and upper-case the payload (§4.2). -/
def cleanChars (l : List Char) : List Char := (l.filter isAlnumCh).map upCh

/-- Left-pad a short all-numeric code with zeros to the canonical UPC length 12
(§4.2 "left-pads numeric UPC/EAN codes to canonical length"). -/
def padChars (s : List Char) : List Char :=
  if !s.isEmpty && s.all isDigitCh && decide (s.length < 12) then
    List.replicate (12 - s.length) '0' ++ s
  else s

/-- Modelled from the spec: `BarcodeDecoderService.normalize` is not in src/.
§4.2: strips non-alphanumeric separators, upper-cases alphabetic payloads,
left-pads numeric UPC/EAN codes to canonical length. -/
def normalize (s : String) : String := ⟨padChars (cleanChars s.data)⟩

inductive BarcodeFormat
  | UPC
  | EAN
  | QR
  | CODE128
  | UNKNOWN
deriving DecidableEq

/-- §3: the typed decoded-barcode value produced by the codec.  The float
`confidence` field is omitted: no behaviour in scope reads it. -/
structure DecodedBarcode where
  rawValue : String
  normalizedValue : String
  format : BarcodeFormat
  isValid : Bool
deriving DecidableEq

/-- Numeric value of an ASCII digit character. -/
def digitVal (c : Char) : Nat := c.toNat - 48

/-- Mod-10 weighted checksum over a full code (check digit included), with
alternating weights starting at `a`. -/
def weightedSum : List Char → Nat → Nat → Nat
  | [], _, _ => 0
  | c :: cs, a, b => a * digitVal c + weightedSum cs b a

/-- Modelled from the spec: `BarcodeDecoderService.decode` is not in src/.
§4.2: classifies by length/charset/checksum (UPC-A 12 digits mod-10, EAN-13
13 digits mod-10, CODE128 variable-length alphanumeric); unrecognized input
yields `UNKNOWN`/`isValid=false` but the call never fails.  QR classification
needs out-of-band scanner information and is not modelled; no claim in scope
depends on it. -/
def decode (raw : String) : DecodedBarcode :=
  let l := raw.data
  if l.all isDigitCh && decide (l.length = 12) then
    { rawValue := raw, normalizedValue := normalize raw, format := .UPC,
      isValid := weightedSum l 3 1 % 10 == 0 }
  else if l.all isDigitCh && decide (l.length = 13) then
    { rawValue := raw, normalizedValue := normalize raw, format := .EAN,
      isValid := weightedSum l 1 3 % 10 == 0 }
  else if !l.isEmpty && l.all isAlnumCh then
    { rawValue := raw, normalizedValue := normalize raw, format := .CODE128,
      isValid := true }
  else
    { rawValue := raw, normalizedValue := normalize raw, format := .UNKNOWN,
      isValid := false }

/-! ## Data model (§3) and system state -/

/-- Error taxonomy (§7) plus the JavaScript runtime error raised by reading a
property of `undefined` (relevant to `batchScan`). -/
inductive Err
  | cacheUnavailable
  | storeUnavailable
  | invalidQuantity
  | undefinedAccess
  | duplicateBarcode (b : String)
  | duplicateSku (s : String)
deriving DecidableEq

/-- The `error.message` string the catch blocks of the source interpolate. -/
def Err.message : Err → String
  | .cacheUnavailable => "Cache unavailable"
  | .storeUnavailable => "Store unavailable"
  | .invalidQuantity => "Quantity must be greater than zero"
  | .undefinedAccess => "Cannot read properties of undefined"
  | .duplicateBarcode b => "Product with barcode " ++ b ++ " already exists"
  | .duplicateSku s => "Product with SKU " ++ s ++ " already exists"

/-- Inventory counters (§3).  Quantities are JavaScript numbers used as
integers. -/
structure Inventory where
  quantityOnHand : Int
  quantityReserved : Int
  reorderLevel : Int
  reorderQuantity : Int
deriving DecidableEq

/-- Modelled from the spec: the `Inventory` entity method `addStock` is not in
src/.  §4.4: fails with `InvalidQuantity` if `quantity ≤ 0`, otherwise
increases `quantityOnHand` by the quantity. -/
def Inventory.addStock (inv : Inventory) (q : Int) : Except Err Inventory :=
  if q ≤ 0 then .error .invalidQuantity
  else .ok { inv with quantityOnHand := inv.quantityOnHand + q }

/-- An in-memory `Product` object as the services see it.  `invRef` is an index
into the heap of in-memory inventory cells: the JavaScript object graph aliases
one mutable inventory object between the cached product and the product held by
an in-flight request, which the explicit heap reproduces.  Descriptive fields
not read by any operation in scope (description, category, supplier, prices,
and so on) are elided. -/
structure Product where
  id : Nat
  barcode : String
  sku : Option String
  name : String
  invRef : Option Nat
  isActive : Bool
deriving DecidableEq

/-- A product row of the durable store, holding the durably committed inventory
counters. -/
structure StoredProduct where
  id : Nat
  barcode : String
  sku : Option String
  name : String
  inv : Option Inventory
  isActive : Bool
deriving DecidableEq

/-- Values held by cache entries in the flows in scope: cached products and the
numeric metric counters. -/
inductive CacheVal
  | prod (p : Product)
  | num (n : Int)
deriving DecidableEq

/-- Externally visible events, used to state ordering properties between cache
invalidation and durable writes.  `storeSaveInventory` is the durable stock
write of the §6 interface (`saveInventory`); the source never emits it — the
call is commented out. -/
inductive Ev
  | cacheGet (k : String)
  | cacheSet (k : String)
  | cacheDelete (k : String)
  | cacheDeletePattern (p : String)
  | cacheIncrement (k : String)
  | storeFindByBarcode (b : String)
  | storeFindBySku (s : String)
  | storeCreate (b : String)
  | storeSaveInventory (pid : Nat)
deriving DecidableEq

/-- Whole-system state: the cache map, the durable store, the heap of
in-memory inventory cells, the id the durable store assigns next, and a fault
schedule deciding which upcoming external calls fail (`StoreUnavailable` /
`CacheUnavailable`); an exhausted schedule means no further faults. -/
structure Sys where
  cache : List (String × CacheVal)
  store : List StoredProduct
  heap : List Inventory
  nextId : Nat
  faults : List Bool
deriving DecidableEq

/-- Consume the next entry of the fault schedule. -/
def takeFault (st : Sys) : Sys × Bool :=
  match st.faults with
  | [] => (st, false)
  | b :: rest => ({ st with faults := rest }, b)

/-- Result of an effectful call: updated state, emitted events, and the
returned value or raised error. -/
abbrev Res (α : Type) := Sys × List Ev × Except Err α

/-! ## Cache layer (§4.1) — modelled from the spec, CacheService is not in src/ -/

def cacheLookup (c : List (String × CacheVal)) (k : String) : Option CacheVal :=
  match c.find? (fun e => e.1 == k) with
  | some e => some e.2
  | none => none

def cacheInsert (c : List (String × CacheVal)) (k : String) (v : CacheVal) :
    List (String × CacheVal) :=
  (k, v) :: c.filter (fun e => !(e.1 == k))

def cacheRemove (c : List (String × CacheVal)) (k : String) :
    List (String × CacheVal) :=
  c.filter (fun e => !(e.1 == k))

/-- Glob matching with `*` standing for any run of characters (§4.1). -/
def globMatch : List Char → List Char → Bool
  | [], [] => true
  | [], _ :: _ => false
  | '*' :: ps, [] => globMatch ps []
  | '*' :: ps, c :: ss => globMatch ps (c :: ss) || globMatch ('*' :: ps) ss
  | _ :: _, [] => false
  | p :: ps, c :: ss => p == c && globMatch ps ss
termination_by ps ss => ps.length + ss.length
decreasing_by all_goals simp_wf <;> omega

def cacheRemovePattern (c : List (String × CacheVal)) (pat : String) :
    List (String × CacheVal) :=
  c.filter (fun e => !(globMatch pat.data e.1.data))

/-- Modelled from the spec: `CacheService.get` (§4.1); may fail with
`CacheUnavailable` (§7). -/
def cacheGetP (st : Sys) (k : String) : Res (Option CacheVal) :=
  let (st1, f) := takeFault st
  if f then (st1, [.cacheGet k], .error .cacheUnavailable)
  else (st1, [.cacheGet k], .ok (cacheLookup st1.cache k))

/-- Modelled from the spec: `CacheService.set` (§4.1), last-writer-wins.  TTL
expiry is not modelled: no claim in scope observes the passage of time. -/
def cacheSetP (st : Sys) (k : String) (v : CacheVal) (_ttl : Nat) : Res Unit :=
  let (st1, f) := takeFault st
  if f then (st1, [.cacheSet k], .error .cacheUnavailable)
  else ({ st1 with cache := cacheInsert st1.cache k v }, [.cacheSet k], .ok ())

/-- Modelled from the spec: `CacheService.delete` (§4.1). -/
def cacheDeleteP (st : Sys) (k : String) : Res Unit :=
  let (st1, f) := takeFault st
  if f then (st1, [.cacheDelete k], .error .cacheUnavailable)
  else ({ st1 with cache := cacheRemove st1.cache k }, [.cacheDelete k], .ok ())

/-- Modelled from the spec: `CacheService.deleteByPattern` (§4.1). -/
def cacheDeletePatternP (st : Sys) (pat : String) : Res Unit :=
  let (st1, f) := takeFault st
  if f then (st1, [.cacheDeletePattern pat], .error .cacheUnavailable)
  else ({ st1 with cache := cacheRemovePattern st1.cache pat },
        [.cacheDeletePattern pat], .ok ())

/-- Modelled from the spec: `CacheService.increment` (§4.1): atomically adds
delta to a numeric counter, creating it at 0 if absent. -/
def cacheIncrementP (st : Sys) (k : String) (delta : Int) : Res Int :=
  let (st1, f) := takeFault st
  if f then (st1, [.cacheIncrement k], .error .cacheUnavailable)
  else
    let newVal : Int :=
      match cacheLookup st1.cache k with
      | some (.num n) => n + delta
      | _ => delta
    ({ st1 with cache := cacheInsert st1.cache k (.num newVal) },
     [.cacheIncrement k], .ok newVal)

/-! ## Durable store interface (§6) — external collaborator -/

/-- §6 `findByBarcode`: queried with the exact stored barcode string. -/
def storeFindByBarcodeP (st : Sys) (b : String) : Res (Option StoredProduct) :=
  let (st1, f) := takeFault st
  if f then (st1, [.storeFindByBarcode b], .error .storeUnavailable)
  else (st1, [.storeFindByBarcode b], .ok (st1.store.find? (fun sp => sp.barcode == b)))

/-- §6 `findBySku`. -/
def storeFindBySkuP (st : Sys) (s : String) : Res (Option StoredProduct) :=
  let (st1, f) := takeFault st
  if f then (st1, [.storeFindBySku s], .error .storeUnavailable)
  else (st1, [.storeFindBySku s],
        .ok (st1.store.find? (fun sp => sp.sku == some s)))

/-- §6 `create`: persists the entity and assigns the next id. -/
def storeCreateP (st : Sys) (barcode : String) (sku : Option String)
    (name : String) : Res StoredProduct :=
  let (st1, f) := takeFault st
  if f then (st1, [.storeCreate barcode], .error .storeUnavailable)
  else
    let sp : StoredProduct :=
      { id := st1.nextId, barcode := barcode, sku := sku, name := name,
        inv := none, isActive := true }
    ({ st1 with store := st1.store ++ [sp], nextId := st1.nextId + 1 },
     [.storeCreate barcode], .ok sp)

/-- Materialize a fetched row as a fresh in-memory product object, allocating a
new heap cell for its (eagerly loaded) inventory relation — each durable fetch
builds a fresh object graph. -/
def materialize (st : Sys) (sp : StoredProduct) : Sys × Product :=
  match sp.inv with
  | none =>
      (st, { id := sp.id, barcode := sp.barcode, sku := sp.sku, name := sp.name,
             invRef := none, isActive := sp.isActive })
  | some i =>
      ({ st with heap := st.heap ++ [i] },
       { id := sp.id, barcode := sp.barcode, sku := sp.sku, name := sp.name,
         invRef := some st.heap.length, isActive := sp.isActive })

/-- Read an in-memory inventory cell. -/
def heapGet (st : Sys) (r : Nat) : Option Inventory := st.heap[r]?

/-! ## ProductService (translated from src: ProductService.ts) -/

/-- Modelled from the spec: the sequential semantics of `CacheService.getOrSet`
(§4.1) as the single caller of this execution observes it — hit returns the
cached value; miss runs the compute function; a successful non-absent result
populates the cache (an absent product is not cached, matching the manual
cache-aside pattern of `decodeScan` in src); a compute failure propagates
without writing an entry.  The concurrent single-flight discipline is modelled
separately below. -/
def getOrSetProductP (st : Sys) (key : String) (ttl : Nat)
    (compute : Sys → Res (Option Product)) : Res (Option Product) :=
  match cacheGetP st key with
  | (st1, tr1, .error e) => (st1, tr1, .error e)
  | (st1, tr1, .ok (some (CacheVal.prod p))) => (st1, tr1, .ok (some p))
  | (st1, tr1, .ok _) =>
      match compute st1 with
      | (st2, tr2, .error e) => (st2, tr1 ++ tr2, .error e)
      | (st2, tr2, .ok none) => (st2, tr1 ++ tr2, .ok none)
      | (st2, tr2, .ok (some p)) =>
          match cacheSetP st2 key (.prod p) ttl with
          | (st3, tr3, .error e) => (st3, tr1 ++ tr2 ++ tr3, .error e)
          | (st3, tr3, .ok _) => (st3, tr1 ++ tr2 ++ tr3, .ok (some p))

/-- `ProductService.getProductByBarcode`: normalizes the barcode and resolves
via `getOrSet` under `product:barcode:<normalized>`, falling back to a durable
`findByBarcode` on the normalized value. -/
def getProductByBarcode (st : Sys) (barcode : String) : Res (Option Product) :=
  let normalized := normalize barcode
  let cacheKey := "product:barcode:" ++ normalized
  getOrSetProductP st cacheKey 3600 (fun st0 =>
    match storeFindByBarcodeP st0 normalized with
    | (st1, tr1, .error e) => (st1, tr1, .error e)
    | (st1, tr1, .ok none) => (st1, tr1, .ok none)
    | (st1, tr1, .ok (some sp)) =>
        let (st2, p) := materialize st1 sp
        (st2, tr1, .ok (some p)))

/-- `CreateProductDto` restricted to the fields the modelled flows read. -/
structure CreateProductDto where
  barcode : String
  name : String
  sku : Option String
deriving DecidableEq

/-- `ProductService.createProduct`: checks barcode uniqueness against the
durable store with the raw `dto.barcode`, checks SKU uniqueness when a SKU is
given, warns (only) on barcode-format validation, persists the entity with
`normalize(dto.barcode)` as its barcode, builds (but never saves) an inventory
record, and sweeps the `products:*` and `search:*` cache patterns.  Failures
are thrown to the caller (no catch in the source method). -/
def createProduct (st : Sys) (dto : CreateProductDto) (_userId : String) :
    Res StoredProduct :=
  match storeFindByBarcodeP st dto.barcode with
  | (st1, tr1, .error e) => (st1, tr1, .error e)
  | (st1, tr1, .ok (some _)) => (st1, tr1, .error (.duplicateBarcode dto.barcode))
  | (st1, tr1, .ok none) =>
      let skuCheck : Res Unit :=
        match dto.sku with
        | none => (st1, [], .ok ())
        | some sk =>
            match storeFindBySkuP st1 sk with
            | (st2, tr2, .error e) => (st2, tr2, .error e)
            | (st2, tr2, .ok (some _)) => (st2, tr2, .error (.duplicateSku sk))
            | (st2, tr2, .ok none) => (st2, tr2, .ok ())
      match skuCheck with
      | (st2, tr2, .error e) => (st2, tr1 ++ tr2, .error e)
      | (st2, tr2, .ok _) =>
          -- barcode format validation: decode result only drives a console
          -- warning, never a failure
          let _decoded := decode dto.barcode
          match storeCreateP st2 (normalize dto.barcode) dto.sku dto.name with
          | (st3, tr3, .error e) => (st3, tr1 ++ tr2 ++ tr3, .error e)
          | (st3, tr3, .ok sp) =>
              -- an Inventory entity is constructed here in the source but
              -- never saved (the save call is absent)
              match cacheDeletePatternP st3 "products:*" with
              | (st4, tr4, .error e) => (st4, tr1 ++ tr2 ++ tr3 ++ tr4, .error e)
              | (st4, tr4, .ok _) =>
                  match cacheDeletePatternP st4 "search:*" with
                  | (st5, tr5, .error e) =>
                      (st5, tr1 ++ tr2 ++ tr3 ++ tr4 ++ tr5, .error e)
                  | (st5, tr5, .ok _) =>
                      (st5, tr1 ++ tr2 ++ tr3 ++ tr4 ++ tr5, .ok sp)

/-! ## ScannerService (translated from src: ScannerService.ts) -/

/-- `ScannerService.logScan`: builds the scan-log entry (the repository save is
commented out in the source), then bumps the metric counters; its own
try/catch swallows every failure, so logging never fails the scan. -/
def logScan (st : Sys) (scanType : String) : Sys × List Ev :=
  match cacheIncrementP st "metrics:total-scans" 1 with
  | (st1, tr1, .error _) => (st1, tr1)
  | (st1, tr1, .ok _) =>
      match cacheIncrementP st1 ("metrics:scans:" ++ scanType) 1 with
      | (st2, tr2, _) => (st2, tr1 ++ tr2)

structure ScanDecodeResponse where
  success : Bool
  product : Option Product
  barcode : DecodedBarcode
  cached : Bool
  message : String
deriving DecidableEq

/-- Body of `ScannerService.decodeScan` (the part inside the try): decode, then
check the scanner cache under the raw-value key `scan:product:<raw>`; on a miss
resolve through `ProductService.getProductByBarcode` and cache a found product
under the raw-value key for 30 minutes; log a lookup scan. -/
def decodeScanBody (st : Sys) (raw : String) : Res ScanDecodeResponse :=
  let decoded := decode raw
  let cacheKey := "scan:product:" ++ decoded.rawValue
  match cacheGetP st cacheKey with
  | (st1, tr1, .error e) => (st1, tr1, .error e)
  | (st1, tr1, .ok (some (CacheVal.prod p))) =>
      let (st2, tr2) := logScan st1 "lookup"
      (st2, tr1 ++ tr2,
       .ok { success := true, product := some p, barcode := decoded,
             cached := true, message := "Product found" })
  | (st1, tr1, .ok _) =>
      match getProductByBarcode st1 decoded.rawValue with
      | (st2, tr2, .error e) => (st2, tr1 ++ tr2, .error e)
      | (st2, tr2, .ok none) =>
          let (st3, tr3) := logScan st2 "lookup"
          (st3, tr1 ++ tr2 ++ tr3,
           .ok { success := false, product := none, barcode := decoded,
                 cached := false,
                 message := "Barcode decoded but product not in database" })
      | (st2, tr2, .ok (some p)) =>
          match cacheSetP st2 cacheKey (.prod p) 1800 with
          | (st3, tr3, .error e) => (st3, tr1 ++ tr2 ++ tr3, .error e)
          | (st3, tr3, .ok _) =>
              let (st4, tr4) := logScan st3 "lookup"
              (st4, tr1 ++ tr2 ++ tr3 ++ tr4,
               .ok { success := true, product := some p, barcode := decoded,
                     cached := false, message := "Product found" })

/-- `ScannerService.decodeScan`: the body wrapped in the catch that turns any
raised error into a `success=false` response (re-decoding the raw value). -/
def decodeScan (st : Sys) (raw : String) : Res ScanDecodeResponse :=
  match decodeScanBody st raw with
  | (st1, tr1, .ok r) => (st1, tr1, .ok r)
  | (st1, tr1, .error e) =>
      (st1, tr1,
       .ok { success := false, product := none, barcode := decode raw,
             cached := false, message := "Error decoding scan: " ++ e.message })

structure QuickAddResponse where
  success : Bool
  product : Option Product
  quantity : Int
  newStock : Int
  message : String
deriving DecidableEq

/-- Body of `ScannerService.quickAdd` (inside the outer try): resolve the
product cache-aside, guard the missing-product and missing-inventory cases,
apply `addStock` under its own inner try, skip persistence (the
`inventoryRepository.save` call is commented out in the source), log an `add`
scan, and delete the `product:<id>` and `product:barcode:<barcode>` cache
keys. -/
def quickAddBody (st : Sys) (barcode : String) (quantity : Int)
    (_userId : String) : Res QuickAddResponse :=
  match getProductByBarcode st barcode with
  | (st1, tr1, .error e) => (st1, tr1, .error e)
  | (st1, tr1, .ok none) =>
      (st1, tr1,
       .ok { success := false, product := none, quantity := quantity,
             newStock := 0,
             message := "Product with barcode " ++ barcode ++ " not found" })
  | (st1, tr1, .ok (some p)) =>
      match p.invRef with
      | none =>
          (st1, tr1,
           .ok { success := false, product := some p, quantity := quantity,
                 newStock := 0,
                 message := "Inventory record not found for product" })
      | some r =>
          match heapGet st1 r with
          | none => (st1, tr1, .error .undefinedAccess)
          | some inv =>
              match inv.addStock quantity with
              | .error e =>
                  (st1, tr1,
                   .ok { success := false, product := some p,
                         quantity := quantity,
                         newStock := inv.quantityOnHand,
                         message := "Error adding stock: " ++ e.message })
              | .ok inv2 =>
                  let st2 := { st1 with heap := st1.heap.set r inv2 }
                  -- durable persistence of the inventory change is commented
                  -- out in the source: no storeSaveInventory event
                  let (st3, tr3) := logScan st2 "add"
                  match cacheDeleteP st3 ("product:" ++ toString p.id) with
                  | (st4, tr4, .error e) =>
                      (st4, tr1 ++ tr3 ++ tr4, .error e)
                  | (st4, tr4, .ok _) =>
                      match cacheDeleteP st4 ("product:barcode:" ++ p.barcode) with
                      | (st5, tr5, .error e) =>
                          (st5, tr1 ++ tr3 ++ tr4 ++ tr5, .error e)
                      | (st5, tr5, .ok _) =>
                          (st5, tr1 ++ tr3 ++ tr4 ++ tr5,
                           .ok { success := true, product := some p,
                                 quantity := quantity,
                                 newStock := inv2.quantityOnHand,
                                 message := "Successfully added " ++
                                   toString quantity ++ " units of " ++ p.name })

/-- `ScannerService.quickAdd`: the body wrapped in the outer catch. -/
def quickAdd (st : Sys) (barcode : String) (quantity : Int) (userId : String) :
    Res QuickAddResponse :=
  match quickAddBody st barcode quantity userId with
  | (st1, tr1, .ok r) => (st1, tr1, .ok r)
  | (st1, tr1, .error e) =>
      (st1, tr1,
       .ok { success := false, product := none, quantity := quantity,
             newStock := 0, message := "Error in quick add: " ++ e.message })

/-- Body of `ScannerService.receiveInventory` (inside the try): same resolution
and guards as `quickAdd`, but `addStock` is called without an inner try (its
failure propagates to the outer catch), the scan is logged with type
`receive`, and — unlike `quickAdd` — no cache key is invalidated. -/
def receiveInventoryBody (st : Sys) (barcode : String) (quantity : Int)
    (_supplierId : Option String) (_userId : Option String) :
    Res QuickAddResponse :=
  match getProductByBarcode st barcode with
  | (st1, tr1, .error e) => (st1, tr1, .error e)
  | (st1, tr1, .ok none) =>
      (st1, tr1,
       .ok { success := false, product := none, quantity := quantity,
             newStock := 0, message := "Product not found" })
  | (st1, tr1, .ok (some p)) =>
      match p.invRef with
      | none =>
          (st1, tr1,
           .ok { success := false, product := some p, quantity := quantity,
                 newStock := 0, message := "Inventory record missing" })
      | some r =>
          match heapGet st1 r with
          | none => (st1, tr1, .error .undefinedAccess)
          | some inv =>
              match inv.addStock quantity with
              | .error e => (st1, tr1, .error e)
              | .ok inv2 =>
                  let st2 := { st1 with heap := st1.heap.set r inv2 }
                  let (st3, tr3) := logScan st2 "receive"
                  (st3, tr1 ++ tr3,
                   .ok { success := true, product := some p,
                         quantity := quantity,
                         newStock := inv2.quantityOnHand,
                         message := "Received " ++ toString quantity ++ " units" })

/-- `ScannerService.receiveInventory`: the body wrapped in the outer catch. -/
def receiveInventory (st : Sys) (barcode : String) (quantity : Int)
    (supplierId : Option String) (userId : Option String) :
    Res QuickAddResponse :=
  match receiveInventoryBody st barcode quantity supplierId userId with
  | (st1, tr1, .ok r) => (st1, tr1, .ok r)
  | (st1, tr1, .error e) =>
      (st1, tr1,
       .ok { success := false, product := none, quantity := quantity,
             newStock := 0, message := e.message })

/-! ## batchScan -/

inductive BatchOp
  | lookup
  | add
  | receive
  | count
deriving DecidableEq

/-- The per-item result value (`itemResult` in the source, an untagged any). -/
inductive ItemRes
  | dec (r : ScanDecodeResponse)
  | qa (r : QuickAddResponse)
deriving DecidableEq

def ItemRes.success : ItemRes → Bool
  | .dec r => r.success
  | .qa r => r.success

/-- Entries of the `items` array: the per-operation result, the `undefined`
local pushed verbatim when no branch ran, or the catch-path error object
(barcode, success:false, error message). -/
inductive BatchItem
  | undef
  | res (r : ItemRes)
  | err (barcode : String) (msg : String)
deriving DecidableEq

structure BatchResult where
  processed : Nat
  succeeded : Nat
  failed : Nat
  items : List BatchItem
deriving DecidableEq

/-- JavaScript truthiness of the optional numeric `quantity` argument: `0` and
`undefined` are falsy. -/
def truthyQty : Option Int → Bool
  | none => false
  | some v => v != 0

/-- The branch selection of the batch loop body: which operation (if any) runs
for one barcode.  Returns the state, the trace, and `Except` of the optional
`itemResult`; the three scan operations never raise (their own catches), so
the error case only documents the inner catch coverage. -/
def batchRunOp (st : Sys) (op : BatchOp) (q : Option Int) (b : String) :
    Sys × List Ev × Except Err (Option ItemRes) :=
  match op with
  | .lookup =>
      match decodeScan st b with
      | (st1, tr1, .error e) => (st1, tr1, .error e)
      | (st1, tr1, .ok r) => (st1, tr1, .ok (some (.dec r)))
  | .add =>
      if truthyQty q then
        match quickAdd st b (q.getD 0) "batch-user" with
        | (st1, tr1, .error e) => (st1, tr1, .error e)
        | (st1, tr1, .ok r) => (st1, tr1, .ok (some (.qa r)))
      else (st, [], .ok none)
  | .receive =>
      if truthyQty q then
        match receiveInventory st b (q.getD 0) none none with
        | (st1, tr1, .error e) => (st1, tr1, .error e)
        | (st1, tr1, .ok r) => (st1, tr1, .ok (some (.qa r)))
      else (st, [], .ok none)
  | .count => (st, [], .ok none)

/-- One iteration of the batch loop (the inner try/catch): run the selected
operation, push the item and count it processed, then read
`itemResult.success` — which, when no branch ran, is a property read on
`undefined`, raising a TypeError that the inner catch converts into a failed
item carrying the error message. -/
def batchStep (st : Sys) (op : BatchOp) (q : Option Int) (b : String)
    (acc : BatchResult) : Sys × List Ev × BatchResult :=
  match batchRunOp st op q b with
  | (st1, tr1, .error e) =>
      (st1, tr1,
       { acc with failed := acc.failed + 1,
                  items := acc.items ++ [.err b e.message] })
  | (st1, tr1, .ok none) =>
      (st1, tr1,
       { acc with processed := acc.processed + 1,
                  failed := acc.failed + 1,
                  items := acc.items ++
                    [.undef, .err b Err.undefinedAccess.message] })
  | (st1, tr1, .ok (some r)) =>
      if r.success then
        (st1, tr1,
         { acc with processed := acc.processed + 1,
                    succeeded := acc.succeeded + 1,
                    items := acc.items ++ [.res r] })
      else
        (st1, tr1,
         { acc with processed := acc.processed + 1,
                    failed := acc.failed + 1,
                    items := acc.items ++ [.res r] })

/-- The batch loop over the barcode list. -/
def batchLoop (st : Sys) (op : BatchOp) (q : Option Int) :
    List String → BatchResult → Sys × List Ev × BatchResult
  | [], acc => (st, [], acc)
  | b :: bs, acc =>
      match batchStep st op q b acc with
      | (st1, tr1, acc1) =>
          match batchLoop st1 op q bs acc1 with
          | (st2, tr2, acc2) => (st2, tr1 ++ tr2, acc2)

/-- `ScannerService.batchScan`: initializes the tallies and runs the loop; the
only statements outside the per-item try/catch cannot raise, so the call
returns the tally record. -/
def batchScan (st : Sys) (barcodes : List String) (op : BatchOp)
    (q : Option Int) : Res BatchResult :=
  match batchLoop st op q barcodes { processed := 0, succeeded := 0, failed := 0, items := [] } with
  | (st1, tr1, acc) => (st1, tr1, .ok acc)

/-! ## Single-flight getOrSet (§4.1, §5) — concurrent model

Modelled from the spec: the `CacheService` is not in src/.  N concurrent
callers run `getOrSet` against one key whose computation produces the outcome
`r` (a success value or a failure).  Under the cache layer's internal mutual
exclusion, claiming the in-flight computation is an atomic check-and-claim;
the computer publishes the outcome to all waiters; a success additionally
populates the cache, a failure does not poison it.  Interleaving of the
callers is arbitrary. -/

namespace SingleFlight

/-- Outcome of the per-key computation: a success value or the propagated
failure. -/
inductive Outcome
  | ok (v : Nat)
  | failure
deriving DecidableEq

/-- Program counter of one getOrSet caller. -/
inductive CPC
  | ready
  | leaderC
  | waiting
  | finished
deriving DecidableEq

structure CallerSt where
  pc : CPC
  res : Option Outcome
deriving DecidableEq

/-- Global state shared by the N callers of one key. -/
structure GS (n : Nat) where
  cache : Option Nat
  flight : Bool
  published : Option Outcome
  invocations : Nat
  callers : Fin n → CallerSt

/-- All callers poised to run, nothing cached for the key (they all miss), the
computation not yet claimed nor run. -/
def initGS (n : Nat) : GS n :=
  { cache := none, flight := false, published := none, invocations := 0,
    callers := fun _ => { pc := .ready, res := none } }

def setCaller {n : Nat} (g : GS n) (i : Fin n) (c : CallerSt) : GS n :=
  { g with callers := Function.update g.callers i c }

/-- One interleaved step of the N-caller system computing outcome `r`. -/
inductive Step (r : Outcome) {n : Nat} : GS n → GS n → Prop
  | hit (g : GS n) (i : Fin n) (v : Nat) :
      (g.callers i).pc = .ready → g.cache = some v →
      Step r g (setCaller g i { pc := .finished, res := some (.ok v) })
  | claim (g : GS n) (i : Fin n) :
      (g.callers i).pc = .ready → g.cache = none → g.flight = false →
      Step r g { setCaller g i { pc := .leaderC, res := none } with flight := true }
  | awaitOther (g : GS n) (i : Fin n) :
      (g.callers i).pc = .ready → g.cache = none → g.flight = true →
      Step r g (setCaller g i { pc := .waiting, res := none })
  | compute (g : GS n) (i : Fin n) :
      (g.callers i).pc = .leaderC →
      Step r g
        { cache := (match r with | .ok v => some v | .failure => g.cache),
          flight := g.flight,
          published := some r,
          invocations := g.invocations + 1,
          callers := Function.update g.callers i { pc := .finished, res := some r } }
  | deliver (g : GS n) (i : Fin n) (o : Outcome) :
      (g.callers i).pc = .waiting → g.published = some o →
      Step r g (setCaller g i { pc := .finished, res := some o })

/-- States reachable from the all-miss initial state. -/
inductive Reach (r : Outcome) {n : Nat} : GS n → Prop
  | init : Reach r (initGS n)
  | step {g g' : GS n} : Reach r g → Step r g g' → Reach r g'

/-- The inductive invariant of the single-flight protocol. -/
def Inv (r : Outcome) {n : Nat} (g : GS n) : Prop :=
  (∀ i, (g.callers i).pc = .finished → (g.callers i).res = some r) ∧
  ((∃ i, (g.callers i).pc = .finished) → g.published = some r) ∧
  (g.invocations = (match g.published with | none => 0 | some _ => 1)) ∧
  (g.published = none ∨ g.published = some r) ∧
  (∀ v, g.cache = some v → r = Outcome.ok v ∧ g.published = some r) ∧
  (∀ i, (g.callers i).pc = .leaderC → g.published = none) ∧
  (∀ i j, (g.callers i).pc = .leaderC → (g.callers j).pc = .leaderC → i = j) ∧
  (g.flight = false →
    (∀ i, (g.callers i).pc = .ready) ∧ g.published = none ∧ g.cache = none)

end SingleFlight

/-! ## Claim-support definitions -/

/-- The state component of an effectful result. -/
def outSys {α : Type} (x : Res α) : Sys := x.1

/-- The trace component of an effectful result. -/
def outTrace {α : Type} (x : Res α) : List Ev := x.2.1

/-- The returned value of an effectful result, `none` when it raised. -/
def okResp {α : Type} (x : Res α) : Option α := x.2.2.toOption

def isCacheDelete : Ev → Bool
  | .cacheDelete _ => true
  | _ => false

/-- A durable stock write: the §6 `saveInventory` call. -/
def isStockWrite : Ev → Bool
  | .storeSaveInventory _ => true
  | _ => false

/-- The ordering contract of §4.3/§4.4 as a trace property: every cache
invalidation is preceded by a committed durable stock write. -/
def stockWriteBeforeDeletes (tr : List Ev) : Prop :=
  ∀ i : Fin tr.length, isCacheDelete (tr.get i) = true →
    ∃ j : Fin tr.length, j.val < i.val ∧ isStockWrite (tr.get j) = true

instance (tr : List Ev) : Decidable (stockWriteBeforeDeletes tr) := by
  unfold stockWriteBeforeDeletes
  infer_instance

/-- An `operation`+`quantity` combination for which no branch of the batch
loop runs: `count`, or `add`/`receive` with a falsy quantity. -/
def unsupportedCombo (op : BatchOp) (q : Option Int) : Prop :=
  op = .count ∨ ((op = .add ∨ op = .receive) ∧ truthyQty q = false)

/-- The items the batch loop accumulates for a run of unsupported-combination
barcodes: per barcode, the pushed `undefined` local followed by the
caught-TypeError failure entry. -/
def failItems : List String → List BatchItem
  | [] => []
  | b :: bs => .undef :: .err b Err.undefinedAccess.message :: failItems bs

/-- Initial durable inventory of the C1/C3 scenario. -/
def invScen : Inventory :=
  { quantityOnHand := 0, quantityReserved := 0, reorderLevel := 10,
    reorderQuantity := 50 }

/-- A product whose stored barcode is already in normal form, so a scan of the
same string resolves it. -/
def spScen : StoredProduct :=
  { id := 7, barcode := "ABC1", sku := none, name := "Widget",
    inv := some invScen, isActive := true }

/-- C1 scenario: one product with zero stock, empty cache, no faults. -/
def sysC1 : Sys :=
  { cache := [], store := [spScen], heap := [], nextId := 8, faults := [] }

/-- First of the two serialized quickAdd calls of the C1 scenario. -/
def runC1a : Res QuickAddResponse := quickAdd sysC1 "ABC1" 5 "deviceA"

/-- Second quickAdd, running after the first completed (a legal serialization
of the two concurrent calls of the claim). -/
def runC1b : Res QuickAddResponse := quickAdd (outSys runC1a) "ABC1" 3 "deviceB"

/-- C3 scenario run: one successful quickAdd. -/
def sysC3 : Sys :=
  { cache := [], store := [spScen], heap := [], nextId := 8, faults := [] }

def runC3 : Res QuickAddResponse := quickAdd sysC3 "ABC1" 5 "deviceA"

/-- C4 scenario run: one successful receiveInventory. -/
def sysC4 : Sys :=
  { cache := [], store := [spScen], heap := [], nextId := 8, faults := [] }

def runC4 : Res QuickAddResponse := receiveInventory sysC4 "ABC1" 5 none none

/-- C5 scenario: the scanner cache holds an entry under the raw-keyed
`scan:product:ab-c1` while the durable store is empty and no
`product:barcode:<normalized>` entry exists. -/
def pC5 : Product :=
  { id := 3, barcode := "ABC1", sku := none, name := "Ghost", invRef := none,
    isActive := true }

def sysC5 : Sys :=
  { cache := [("scan:product:ab-c1", .prod pC5)], store := [], heap := [],
    nextId := 0, faults := [] }

def runC5 : Res ScanDecodeResponse := decodeScan sysC5 "ab-c1"

/-- C9 scenario: two creation requests whose raw barcodes differ as strings
but normalize to the same value. -/
def dtoC9a : CreateProductDto := { barcode := "abc", name := "Widget A", sku := none }

def dtoC9b : CreateProductDto := { barcode := "ab-c", name := "Widget B", sku := none }

def sysC9 : Sys :=
  { cache := [], store := [], heap := [], nextId := 0, faults := [] }

def runC9a : Res StoredProduct := createProduct sysC9 dtoC9a "user1"

def runC9b : Res StoredProduct := createProduct (outSys runC9a) dtoC9b "user1"

/-! # Theorems -/

/-! ### Idempotence of normalization -/

theorem charOfNat_toNat {n : Nat} (h1 : 65 ≤ n) (h2 : n ≤ 90) :
    (Char.ofNat n).toNat = n := by
  have hv : n.isValidChar := Or.inl (by omega)
  simp only [Char.ofNat, hv, dif_pos, Char.ofNatAux, Char.toNat]
  simp [UInt32.toNat, BitVec.toNat_ofNatLt]

theorem upCh_toNat_of_lower {c : Char} (h : isLowerCh c = true) :
    (upCh c).toNat = c.toNat - 32 := by
  have h1 : 97 ≤ c.toNat ∧ c.toNat ≤ 122 := by
    simpa [isLowerCh, Bool.and_eq_true, decide_eq_true_eq] using h
  simp only [upCh, h, if_pos]
  exact charOfNat_toNat (by omega) (by omega)

theorem upCh_not_lower {c : Char} (h : isLowerCh c = false) : upCh c = c := by
  simp [upCh, h]

theorem isLowerCh_upCh (c : Char) : isLowerCh (upCh c) = false := by
  by_cases h : isLowerCh c = true
  · have h1 : 97 ≤ c.toNat ∧ c.toNat ≤ 122 := by
      simpa [isLowerCh, Bool.and_eq_true, decide_eq_true_eq] using h
    have h2 := upCh_toNat_of_lower h
    simp [isLowerCh, h2]
    omega
  · rw [upCh_not_lower (by simpa using h)]
    simpa using h

theorem upCh_idem (c : Char) : upCh (upCh c) = upCh c :=
  upCh_not_lower (isLowerCh_upCh c)

theorem isAlnumCh_upCh {c : Char} (h : isAlnumCh c = true) :
    isAlnumCh (upCh c) = true := by
  by_cases hl : isLowerCh c = true
  · have h1 : 97 ≤ c.toNat ∧ c.toNat ≤ 122 := by
      simpa [isLowerCh, Bool.and_eq_true, decide_eq_true_eq] using hl
    have h2 := upCh_toNat_of_lower hl
    simp [isAlnumCh, isUpperCh, isDigitCh, isLowerCh, h2]
    omega
  · rw [upCh_not_lower (by simpa using hl)]
    exact h

theorem upCh_digit {c : Char} (h : isDigitCh c = true) : upCh c = c := by
  have h1 : 48 ≤ c.toNat ∧ c.toNat ≤ 57 := by
    simpa [isDigitCh, Bool.and_eq_true, decide_eq_true_eq] using h
  refine upCh_not_lower ?_
  simp [isLowerCh]
  omega

theorem cleanChars_idem (l : List Char) : cleanChars (cleanChars l) = cleanChars l := by
  induction l with
  | nil => rfl
  | cons a l ih =>
    by_cases ha : isAlnumCh a = true
    · have hstep : cleanChars (a :: l) = upCh a :: cleanChars l := by
        simp [cleanChars, List.filter_cons, ha]
      rw [hstep]
      have ha2 : isAlnumCh (upCh a) = true := isAlnumCh_upCh ha
      have : cleanChars (upCh a :: cleanChars l) = upCh (upCh a) :: cleanChars (cleanChars l) := by
        simp [cleanChars, List.filter_cons, ha2]
      rw [this, upCh_idem, ih]
    · have hstep : cleanChars (a :: l) = cleanChars l := by
        simp [cleanChars, List.filter_cons, ha]
      rw [hstep, ih]

theorem cleanChars_of_all_digits {l : List Char} (h : l.all isDigitCh = true) :
    cleanChars l = l := by
  induction l with
  | nil => rfl
  | cons a l ih =>
    have ha : isDigitCh a = true := by
      have := List.all_eq_true.mp h a (by simp)
      exact this
    have hl : l.all isDigitCh = true := by
      refine List.all_eq_true.mpr ?_
      intro x hx
      exact List.all_eq_true.mp h x (by simp [hx])
    have haln : isAlnumCh a = true := by simp [isAlnumCh, ha]
    simp [cleanChars, List.filter_cons, haln, upCh_digit ha] at *
    exact ih hl

theorem padChars_of_pos {s : List Char}
    (h : (!s.isEmpty && s.all isDigitCh && decide (s.length < 12)) = true) :
    padChars s = List.replicate (12 - s.length) '0' ++ s := by
  simp only [padChars, h, if_true]

theorem padChars_of_neg {s : List Char}
    (h : (!s.isEmpty && s.all isDigitCh && decide (s.length < 12)) = false) :
    padChars s = s := by
  simp [padChars, h]

theorem padChars_idem_of_clean {s : List Char} (hs : cleanChars s = s) :
    padChars (cleanChars (padChars s)) = padChars s := by
  by_cases hcond : (!s.isEmpty && s.all isDigitCh && decide (s.length < 12)) = true
  · rw [padChars_of_pos hcond]
    have hdig : s.all isDigitCh = true := by
      simp only [Bool.and_eq_true] at hcond
      exact hcond.1.2
    have hlt : s.length < 12 := by
      simp only [Bool.and_eq_true, decide_eq_true_eq] at hcond
      exact hcond.2
    have hpdig : (List.replicate (12 - s.length) '0' ++ s).all isDigitCh = true := by
      refine List.all_eq_true.mpr ?_
      intro x hx
      rcases List.mem_append.mp hx with hx | hx
      · have hx0 : x = '0' := List.eq_of_mem_replicate hx
        subst hx0
        decide
      · exact List.all_eq_true.mp hdig x hx
    rw [cleanChars_of_all_digits hpdig]
    refine padChars_of_neg ?_
    have hplen : (List.replicate (12 - s.length) '0' ++ s).length = 12 := by
      simp [List.length_append, List.length_replicate]
      omega
    simp [hplen]
  · have hcond' : (!s.isEmpty && s.all isDigitCh && decide (s.length < 12)) = false := by
      simpa using hcond
    rw [padChars_of_neg hcond', hs, padChars_of_neg hcond']

theorem normalize_idem_chars (l : List Char) :
    padChars (cleanChars (padChars (cleanChars l))) = padChars (cleanChars l) :=
  padChars_idem_of_clean (cleanChars_idem l)

/-- C8: for every input string `x`, `normalize (normalize x) = normalize x` —
barcode normalization is idempotent. -/
theorem C8_normalize_idempotent (x : String) :
    normalize (normalize x) = normalize x :=
  congrArg String.mk (normalize_idem_chars x.data)

/-- C1: the claim says two concurrent `addStock`-style quickAdd calls of 5 and
3 serialize so that the final `quantityOnHand` rises by exactly 8.  On the
code, even the fully serialized schedule (one call completing before the other
starts — a legal linearization of the two concurrent calls) loses the first
update: the durable write is never issued, the second call re-reads stock 0
from the durable store, reports `newStock = 3`, and the durable
`quantityOnHand` stays 0 — never 8. -/
theorem C1_quickAdd_lost_update :
    (okResp runC1a).map (fun r => (r.success, r.newStock)) = some (true, 5) ∧
    (okResp runC1b).map (fun r => (r.success, r.newStock)) = some (true, 3) ∧
    (outSys runC1b).store.map (fun sp => sp.inv.map (fun i => i.quantityOnHand)) =
      [some 0] ∧
    (outSys runC1b).heap.map (fun i => i.quantityOnHand) = [5, 3] := by
  decide

/-- C3: a successful quickAdd issues its cache deletes for the affected
product while its trace contains no durable stock write at all (the
`saveInventory` persistence call is commented out in the source), so the
required delete-after-durable-commit ordering fails. -/
theorem C3_quickAdd_delete_without_durable_write :
    (okResp runC3).map (fun r => r.success) = some true ∧
    (Ev.cacheDelete "product:barcode:ABC1") ∈ outTrace runC3 ∧
    (outTrace runC3).all (fun e => !isStockWrite e) = true ∧
    ¬ stockWriteBeforeDeletes (outTrace runC3) := by
  decide

/-- C4: a successful receiveInventory logs scan type `receive` (the metrics
counter `metrics:scans:receive` is bumped) but issues no cache invalidation at
all: neither `product:<id>` nor `product:barcode:<barcode>` is deleted,
contrary to the claimed quickAdd-identical contract. -/
theorem C4_receiveInventory_no_invalidation :
    (okResp runC4).map (fun r => (r.success, r.newStock)) = some (true, 5) ∧
    (Ev.cacheIncrement "metrics:scans:receive") ∈ outTrace runC4 ∧
    (outTrace runC4).all (fun e => !isCacheDelete e) = true ∧
    (Ev.cacheDelete "product:7") ∉ outTrace runC4 ∧
    (Ev.cacheDelete "product:barcode:ABC1") ∉ outTrace runC4 := by
  decide

/-- C5 counterexample: decodeScan does not resolve through the
`product:barcode:<normalized>` key discipline.  With an empty durable store
and no entry under the normalized key, a resolution keyed by the normalized
value would find nothing; decodeScan nevertheless returns a product, served
from its raw-keyed `scan:product:<raw>` entry, and its trace never consults
the normalized key nor the durable store. -/
theorem C5_counterexample_raw_scan_key :
    cacheLookup sysC5.cache ("product:barcode:" ++ normalize "ab-c1") = none ∧
    sysC5.store = [] ∧
    (okResp runC5).map (fun r => (r.product, r.cached, r.success)) =
      some (some pC5, true, true) ∧
    (Ev.cacheGet "scan:product:ab-c1") ∈ outTrace runC5 ∧
    (Ev.cacheGet ("product:barcode:" ++ normalize "ab-c1")) ∉ outTrace runC5 ∧
    (Ev.storeFindByBarcode (normalize "ab-c1")) ∉ outTrace runC5 ∧
    "scan:product:ab-c1" ≠ "product:barcode:" ++ normalize "ab-c1" := by
  decide

namespace SingleFlight

theorem setCaller_pc_eq {n : Nat} (g : GS n) (i : Fin n) (c : CallerSt) :
    ((setCaller g i c).callers i) = c := by
  simp [setCaller]

theorem setCaller_pc_ne {n : Nat} (g : GS n) (i j : Fin n) (c : CallerSt)
    (h : j ≠ i) : ((setCaller g i c).callers j) = g.callers j := by
  simp [setCaller, Function.update_apply, h]

theorem inv_init {r : Outcome} {n : Nat} : Inv r (initGS n) := by
  refine ⟨?_, ?_, ?_, ?_, ?_, ?_, ?_, ?_⟩
  · intro i h
    simp [initGS] at h
  · rintro ⟨i, h⟩
    simp [initGS] at h
  · rfl
  · exact Or.inl rfl
  · intro v h
    simp [initGS] at h
  · intro i h
    simp [initGS] at h
  · intro i j h _
    simp [initGS] at h
  · intro _
    exact ⟨fun _ => rfl, rfl, rfl⟩

theorem inv_step {r : Outcome} {n : Nat} {g g' : GS n}
    (hInv : Inv r g) (hs : Step r g g') : Inv r g' := by
  obtain ⟨I1, I2, I3, I4, I5, I6, I7, I8⟩ := hInv
  cases hs with
  | hit i v hpc hc =>
    obtain ⟨hrv, hpub⟩ := I5 v hc
    refine ⟨?_, fun _ => hpub, I3, I4, I5, ?_, ?_, ?_⟩
    · intro j hj
      by_cases hji : j = i
      · simp [setCaller, Function.update_apply, hji]
        exact hrv.symm
      · simp only [setCaller, Function.update_apply, hji, if_false] at hj ⊢
        exact I1 j hj
    · intro j hj
      by_cases hji : j = i
      · simp [setCaller, Function.update_apply, hji] at hj
      · simp only [setCaller, Function.update_apply, hji, if_false] at hj
        exact I6 j hj
    · intro j k hj hk
      by_cases hji : j = i
      · simp [setCaller, Function.update_apply, hji] at hj
      · by_cases hki : k = i
        · simp [setCaller, Function.update_apply, hki] at hk
        · simp only [setCaller, Function.update_apply, hji, hki, if_false] at hj hk
          exact I7 j k hj hk
    · intro hf
      have h8 := I8 hf
      rw [h8.2.2] at hc
      exact absurd hc (by simp)
  | claim i hpc hc hfl =>
    have h8 := I8 hfl
    have hall : ∀ j, (g.callers j).pc = CPC.ready := h8.1
    refine ⟨?_, ?_, I3, I4, ?_, ?_, ?_, ?_⟩
    · intro j hj
      by_cases hji : j = i
      · simp [setCaller, Function.update_apply, hji] at hj
      · simp only [setCaller, Function.update_apply, hji, if_false] at hj
        rw [hall j] at hj
        exact absurd hj (by simp)
    · rintro ⟨j, hj⟩
      by_cases hji : j = i
      · simp [setCaller, Function.update_apply, hji] at hj
      · simp only [setCaller, Function.update_apply, hji, if_false] at hj
        rw [hall j] at hj
        exact absurd hj (by simp)
    · intro v hv
      simp only [setCaller] at hv
      rw [h8.2.2] at hv
      exact absurd hv (by simp)
    · intro j _
      exact h8.2.1
    · intro j k hj hk
      by_cases hji : j = i
      · by_cases hki : k = i
        · rw [hji, hki]
        · simp only [setCaller, Function.update_apply, hki, if_false] at hk
          rw [hall k] at hk
          exact absurd hk (by simp)
      · simp only [setCaller, Function.update_apply, hji, if_false] at hj
        rw [hall j] at hj
        exact absurd hj (by simp)
    · intro hf
      exact absurd hf (by simp)
  | awaitOther i hpc hc hfl =>
    refine ⟨?_, ?_, I3, I4, I5, ?_, ?_, ?_⟩
    · intro j hj
      by_cases hji : j = i
      · simp [setCaller, Function.update_apply, hji] at hj
      · simp only [setCaller, Function.update_apply, hji, if_false] at hj ⊢
        exact I1 j hj
    · rintro ⟨j, hj⟩
      by_cases hji : j = i
      · simp [setCaller, Function.update_apply, hji] at hj
      · simp only [setCaller, Function.update_apply, hji, if_false] at hj
        exact I2 ⟨j, hj⟩
    · intro j hj
      by_cases hji : j = i
      · simp [setCaller, Function.update_apply, hji] at hj
      · simp only [setCaller, Function.update_apply, hji, if_false] at hj
        exact I6 j hj
    · intro j k hj hk
      by_cases hji : j = i
      · simp [setCaller, Function.update_apply, hji] at hj
      · by_cases hki : k = i
        · simp [setCaller, Function.update_apply, hki] at hk
        · simp only [setCaller, Function.update_apply, hji, hki, if_false] at hj hk
          exact I7 j k hj hk
    · intro hf
      simp only [setCaller] at hf
      rw [hf] at hfl
      exact absurd hfl (by simp)
  | compute i hpc =>
    have hpubOld : g.published = none := I6 i hpc
    have hinvOld : g.invocations = 0 := by
      rw [I3, hpubOld]
    refine ⟨?_, fun _ => rfl, ?_, Or.inr rfl, ?_, ?_, ?_, ?_⟩
    · intro j hj
      by_cases hji : j = i
      · simp [Function.update_apply, hji]
      · simp only [Function.update_apply, hji, if_false] at hj ⊢
        exact I1 j hj
    · simp [hinvOld]
    · intro v hv
      cases r with
      | ok w =>
          simp only [Option.some.injEq] at hv
          exact ⟨by rw [hv], rfl⟩
      | failure =>
          simp only at hv
          have := (I5 v hv).2
          rw [hpubOld] at this
          exact absurd this (by simp)
    · intro j hj
      by_cases hji : j = i
      · simp [Function.update_apply, hji] at hj
      · simp only [Function.update_apply, hji, if_false] at hj
        exact absurd (I7 j i hj hpc) hji
    · intro j k hj hk
      by_cases hji : j = i
      · simp [Function.update_apply, hji] at hj
      · simp only [Function.update_apply, hji, if_false] at hj
        exact absurd (I7 j i hj hpc) hji
    · intro hf
      have h8 := I8 hf
      rw [h8.1 i] at hpc
      exact absurd hpc (by simp)
  | deliver i o hpc hpub =>
    have hro : o = r := by
      rcases I4 with h | h
      · rw [h] at hpub
        exact absurd hpub (by simp)
      · rw [h] at hpub
        exact (Option.some_injective _ hpub).symm
    refine ⟨?_, fun _ => hpub.trans (by rw [hro]), I3, I4, I5, ?_, ?_, ?_⟩
    · intro j hj
      by_cases hji : j = i
      · simp [setCaller, Function.update_apply, hji, hro]
      · simp only [setCaller, Function.update_apply, hji, if_false] at hj ⊢
        exact I1 j hj
    · intro j hj
      by_cases hji : j = i
      · simp [setCaller, Function.update_apply, hji] at hj
      · simp only [setCaller, Function.update_apply, hji, if_false] at hj
        have := I6 j hj
        rw [this] at hpub
        exact absurd hpub (by simp)
    · intro j k hj hk
      by_cases hji : j = i
      · simp [setCaller, Function.update_apply, hji] at hj
      · by_cases hki : k = i
        · simp [setCaller, Function.update_apply, hki] at hk
        · simp only [setCaller, Function.update_apply, hji, hki, if_false] at hj hk
          exact I7 j k hj hk
    · intro hf
      simp only [setCaller] at hf
      have := (I8 hf).1 i
      rw [this] at hpc
      exact absurd hpc (by simp)

theorem inv_reach {r : Outcome} {n : Nat} {g : GS n} (h : Reach r g) :
    Inv r g := by
  induction h with
  | init => exact inv_init
  | step _ hs ih => exact inv_step ih hs

end SingleFlight

/-- C2: in the single-flight model of `getOrSet`, from the all-miss initial
state, every completed execution of the N concurrent callers has run the
computation exactly once, and every caller holds the identical outcome (the
computed value, or the propagated failure). -/
theorem C2_getOrSet_single_flight {n : Nat} (r : SingleFlight.Outcome)
    (g : SingleFlight.GS n) (hre : SingleFlight.Reach r g)
    (hfin : ∀ i, (g.callers i).pc = SingleFlight.CPC.finished)
    (hn : 0 < n) :
    g.invocations = 1 ∧ ∀ i, (g.callers i).res = some r := by
  obtain ⟨I1, I2, I3, _, _, _, _, _⟩ := SingleFlight.inv_reach hre
  have hpub := I2 ⟨⟨0, hn⟩, hfin ⟨0, hn⟩⟩
  refine ⟨?_, fun i => I1 i (hfin i)⟩
  rw [I3, hpub]

/-- C9: two createProduct calls whose raw barcodes differ as strings but
normalize to the same value both pass the raw-keyed duplicate check and
produce two stored products with equal barcodes, violating stored-barcode
uniqueness. -/
theorem C9_duplicate_normalized_barcode :
    dtoC9a.barcode ≠ dtoC9b.barcode ∧
    normalize dtoC9a.barcode = normalize dtoC9b.barcode ∧
    (okResp runC9a).isSome = true ∧
    (okResp runC9b).isSome = true ∧
    (outSys runC9b).store.map (fun sp => sp.barcode) = ["ABC", "ABC"] ∧
    (outSys runC9b).store.map (fun sp => sp.id) = [0, 1] := by
  decide

/-! ## Helper lemmas: strings, decode, store invariance -/

theorem str_append_ne_empty (p m : String) (hp : p ≠ "") : p ++ m ≠ "" := by
  intro h
  apply hp
  have hd : p.data ++ m.data = ([] : List Char) := congrArg String.data h
  rcases List.append_eq_nil.mp hd with ⟨h1, _⟩
  exact congrArg String.mk h1

theorem err_message_ne (e : Err) : e.message ≠ "" := by
  cases e with
  | duplicateBarcode b =>
      exact str_append_ne_empty _ _ (str_append_ne_empty _ _ (by decide))
  | duplicateSku s =>
      exact str_append_ne_empty _ _ (str_append_ne_empty _ _ (by decide))
  | cacheUnavailable => decide
  | storeUnavailable => decide
  | invalidQuantity => decide
  | undefinedAccess => decide

theorem decode_rawValue (raw : String) : (decode raw).rawValue = raw := by
  unfold decode
  dsimp only
  split
  · rfl
  · split
    · rfl
    · split
      · rfl
      · rfl

theorem takeFault_store (st : Sys) : (takeFault st).1.store = st.store := by
  unfold takeFault
  cases h : st.faults <;> simp

theorem takeFault_cache (st : Sys) : (takeFault st).1.cache = st.cache := by
  unfold takeFault
  cases h : st.faults <;> simp

theorem cacheGetP_store (st : Sys) (k : String) :
    (cacheGetP st k).1.store = st.store := by
  unfold cacheGetP
  rcases htf : takeFault st with ⟨st1, f⟩
  have h := takeFault_store st
  rw [htf] at h
  simp only at h
  cases f <;> simp [h]

theorem cacheSetP_store (st : Sys) (k : String) (v : CacheVal) (ttl : Nat) :
    (cacheSetP st k v ttl).1.store = st.store := by
  unfold cacheSetP
  rcases htf : takeFault st with ⟨st1, f⟩
  have h := takeFault_store st
  rw [htf] at h
  simp only at h
  cases f <;> simp [h]

theorem cacheDeleteP_store (st : Sys) (k : String) :
    (cacheDeleteP st k).1.store = st.store := by
  unfold cacheDeleteP
  rcases htf : takeFault st with ⟨st1, f⟩
  have h := takeFault_store st
  rw [htf] at h
  simp only at h
  cases f <;> simp [h]

theorem cacheIncrementP_store (st : Sys) (k : String) (d : Int) :
    (cacheIncrementP st k d).1.store = st.store := by
  unfold cacheIncrementP
  rcases htf : takeFault st with ⟨st1, f⟩
  have h := takeFault_store st
  rw [htf] at h
  simp only at h
  cases f <;> simp [h]

theorem storeFindByBarcodeP_store (st : Sys) (b : String) :
    (storeFindByBarcodeP st b).1.store = st.store := by
  unfold storeFindByBarcodeP
  rcases htf : takeFault st with ⟨st1, f⟩
  have h := takeFault_store st
  rw [htf] at h
  simp only at h
  cases f <;> simp [h]

theorem materialize_store (st : Sys) (sp : StoredProduct) :
    (materialize st sp).1.store = st.store := by
  unfold materialize
  cases sp.inv <;> simp

theorem getOrSetProductP_store (st : Sys) (key : String) (ttl : Nat)
    (compute : Sys → Res (Option Product))
    (hc : ∀ st0, ((compute st0).1).store = st0.store) :
    (getOrSetProductP st key ttl compute).1.store = st.store := by
  unfold getOrSetProductP
  rcases hg : cacheGetP st key with ⟨st1, tr1, x⟩
  have h1 := cacheGetP_store st key
  rw [hg] at h1
  simp only at h1
  cases x with
  | error e => simpa using h1
  | ok v =>
    rcases hc2 : compute st1 with ⟨st2, tr2, y⟩
    have h2 := hc st1
    rw [hc2] at h2
    simp only at h2
    cases v with
    | some cv =>
      cases cv with
      | prod p => simpa using h1
      | num k =>
        dsimp only
        rw [hc2]
        cases y with
        | error e => simpa using h2.trans h1
        | ok w =>
          cases w with
          | none => simpa using h2.trans h1
          | some p =>
            dsimp only
            rcases hs : cacheSetP st2 key (CacheVal.prod p) ttl with ⟨st3, tr3, z⟩
            have h3 := cacheSetP_store st2 key (CacheVal.prod p) ttl
            rw [hs] at h3
            simp only at h3
            cases z <;> simpa using (h3.trans h2).trans h1
    | none =>
      dsimp only
      rw [hc2]
      cases y with
      | error e => simpa using h2.trans h1
      | ok w =>
        cases w with
        | none => simpa using h2.trans h1
        | some p =>
          dsimp only
          rcases hs : cacheSetP st2 key (CacheVal.prod p) ttl with ⟨st3, tr3, z⟩
          have h3 := cacheSetP_store st2 key (CacheVal.prod p) ttl
          rw [hs] at h3
          simp only at h3
          cases z <;> simpa using (h3.trans h2).trans h1

theorem getProductByBarcode_store (st : Sys) (b : String) :
    (getProductByBarcode st b).1.store = st.store := by
  unfold getProductByBarcode
  refine getOrSetProductP_store _ _ _ _ ?_
  intro st0
  rcases hf : storeFindByBarcodeP st0 (normalize b) with ⟨st1, tr1, x⟩
  have h1 := storeFindByBarcodeP_store st0 (normalize b)
  rw [hf] at h1
  simp only at h1
  cases x with
  | error e => simpa using h1
  | ok w =>
    cases w with
    | none => simpa using h1
    | some sp => exact (materialize_store st1 sp).trans h1

theorem logScan_store (st : Sys) (t : String) :
    (logScan st t).1.store = st.store := by
  unfold logScan
  rcases h1 : cacheIncrementP st "metrics:total-scans" 1 with ⟨st1, tr1, x⟩
  have e1 := cacheIncrementP_store st "metrics:total-scans" 1
  rw [h1] at e1
  simp only at e1
  cases x with
  | error e => simpa using e1
  | ok v =>
    exact (cacheIncrementP_store st1 ("metrics:scans:" ++ t) 1).trans e1

theorem quickAddBody_store (st : Sys) (b : String) (q : Int) (uid : String) :
    (quickAddBody st b q uid).1.store = st.store := by
  unfold quickAddBody
  rcases hg : getProductByBarcode st b with ⟨st1, tr1, x⟩
  have e1 : st1.store = st.store := by
    have h := getProductByBarcode_store st b
    rw [hg] at h
    exact h
  cases x with
  | error e => exact e1
  | ok w =>
    cases w with
    | none => exact e1
    | some p =>
      dsimp only
      cases hr : p.invRef with
      | none => exact e1
      | some ridx =>
        dsimp only
        cases hh : heapGet st1 ridx with
        | none => exact e1
        | some inv =>
          dsimp only
          cases ha : inv.addStock q with
          | error e => exact e1
          | ok inv2 =>
            dsimp only
            rcases hl : logScan { st1 with heap := st1.heap.set ridx inv2 } "add" with ⟨st3, tr3⟩
            have e3 : st3.store = st.store := by
              have h := logScan_store { st1 with heap := st1.heap.set ridx inv2 } "add"
              rw [hl] at h
              exact h.trans e1
            dsimp only
            rcases hd1 : cacheDeleteP st3 ("product:" ++ toString p.id) with ⟨st4, tr4, z⟩
            have e4 : st4.store = st3.store := by
              have h := cacheDeleteP_store st3 ("product:" ++ toString p.id)
              rw [hd1] at h
              exact h
            cases z with
            | error e => exact e4.trans e3
            | ok u =>
              dsimp only
              rcases hd2 : cacheDeleteP st4 ("product:barcode:" ++ p.barcode) with ⟨st5, tr5, w2⟩
              have e5 : st5.store = st4.store := by
                have h := cacheDeleteP_store st4 ("product:barcode:" ++ p.barcode)
                rw [hd2] at h
                exact h
              cases w2 <;> exact e5.trans (e4.trans e3)

theorem quickAdd_store (st : Sys) (b : String) (q : Int) (uid : String) :
    (quickAdd st b q uid).1.store = st.store := by
  unfold quickAdd
  rcases hb : quickAddBody st b q uid with ⟨st1, tr1, x⟩
  have e1 := quickAddBody_store st b q uid
  rw [hb] at e1
  simp only at e1
  cases x <;> simpa using e1

/-! ## Totality of the scan operations (no exception escapes) -/

theorem decodeScanBody_msg (st : Sys) (raw : String) :
    ∀ {r : ScanDecodeResponse},
      (decodeScanBody st raw).2.2 = Except.ok r → r.message ≠ "" := by
  unfold decodeScanBody
  dsimp only
  repeat' split
  all_goals intro r h
  all_goals simp at h
  all_goals cases h
  all_goals dsimp only
  all_goals decide

theorem decodeScan_total (st : Sys) (raw : String) :
    ∃ st2 tr r, decodeScan st raw = (st2, tr, Except.ok r) ∧ r.message ≠ "" := by
  unfold decodeScan
  rcases hb : decodeScanBody st raw with ⟨st1, tr1, x⟩
  cases x with
  | error e =>
      exact ⟨st1, tr1, _, rfl, str_append_ne_empty _ _ (by decide)⟩
  | ok r =>
      refine ⟨st1, tr1, r, rfl, decodeScanBody_msg st raw ?_⟩
      rw [hb]

theorem quickAddBody_msg (st : Sys) (b : String) (q : Int) (uid : String) :
    ∀ {r : QuickAddResponse},
      (quickAddBody st b q uid).2.2 = Except.ok r → r.message ≠ "" := by
  unfold quickAddBody
  dsimp only
  repeat' split
  all_goals intro r h
  all_goals simp at h
  all_goals cases h
  all_goals dsimp only
  all_goals
    first
    | decide
    | exact str_append_ne_empty _ _ (by decide)
    | exact str_append_ne_empty _ _ (str_append_ne_empty _ _ (by decide))
    | exact str_append_ne_empty _ _ (str_append_ne_empty _ _ (str_append_ne_empty _ _ (by decide)))

theorem quickAdd_total (st : Sys) (b : String) (q : Int) (uid : String) :
    ∃ st2 tr r, quickAdd st b q uid = (st2, tr, Except.ok r) ∧ r.message ≠ "" := by
  unfold quickAdd
  rcases hb : quickAddBody st b q uid with ⟨st1, tr1, x⟩
  cases x with
  | error e =>
      exact ⟨st1, tr1, _, rfl, str_append_ne_empty _ _ (by decide)⟩
  | ok r =>
      refine ⟨st1, tr1, r, rfl, quickAddBody_msg st b q uid ?_⟩
      rw [hb]

theorem receiveInventoryBody_msg (st : Sys) (b : String) (q : Int)
    (sup uid : Option String) :
    ∀ {r : QuickAddResponse},
      (receiveInventoryBody st b q sup uid).2.2 = Except.ok r → r.message ≠ "" := by
  unfold receiveInventoryBody
  dsimp only
  repeat' split
  all_goals intro r h
  all_goals simp at h
  all_goals cases h
  all_goals dsimp only
  all_goals
    first
    | decide
    | exact str_append_ne_empty _ _ (by decide)
    | exact str_append_ne_empty _ _ (str_append_ne_empty _ _ (by decide))

theorem receiveInventory_total (st : Sys) (b : String) (q : Int)
    (sup uid : Option String) :
    ∃ st2 tr r, receiveInventory st b q sup uid = (st2, tr, Except.ok r) ∧
      r.message ≠ "" := by
  unfold receiveInventory
  rcases hb : receiveInventoryBody st b q sup uid with ⟨st1, tr1, x⟩
  cases x with
  | error e =>
      exact ⟨st1, tr1, _, rfl, err_message_ne e⟩
  | ok r =>
      refine ⟨st1, tr1, r, rfl, receiveInventoryBody_msg st b q sup uid ?_⟩
      rw [hb]

theorem batchScan_total (st : Sys) (bs : List String) (op : BatchOp)
    (q : Option Int) :
    ∃ st2 tr res, batchScan st bs op q = (st2, tr, Except.ok res) := by
  unfold batchScan
  rcases hb : batchLoop st op q bs { processed := 0, succeeded := 0, failed := 0, items := [] } with ⟨st1, tr1, acc⟩
  exact ⟨st1, tr1, acc, rfl⟩

/-! ## Batch loop lemmas -/

theorem batchRunOp_ok (st : Sys) (op : BatchOp) (q : Option Int) (b : String) :
    ∃ st1 tr1 o, batchRunOp st op q b = (st1, tr1, Except.ok o) := by
  cases op with
  | lookup =>
      obtain ⟨st2, tr, r, he, _⟩ := decodeScan_total st b
      refine ⟨st2, tr, some (.dec r), ?_⟩
      unfold batchRunOp
      dsimp only
      rw [he]
  | add =>
      by_cases ht : truthyQty q = true
      · obtain ⟨st2, tr, r, he, _⟩ := quickAdd_total st b (q.getD 0) "batch-user"
        refine ⟨st2, tr, some (.qa r), ?_⟩
        unfold batchRunOp
        dsimp only
        rw [if_pos ht, he]
      · refine ⟨st, [], none, ?_⟩
        unfold batchRunOp
        dsimp only
        rw [if_neg ht]
  | receive =>
      by_cases ht : truthyQty q = true
      · obtain ⟨st2, tr, r, he, _⟩ := receiveInventory_total st b (q.getD 0) none none
        refine ⟨st2, tr, some (.qa r), ?_⟩
        unfold batchRunOp
        dsimp only
        rw [if_pos ht, he]
      · refine ⟨st, [], none, ?_⟩
        unfold batchRunOp
        dsimp only
        rw [if_neg ht]
  | count => exact ⟨st, [], none, rfl⟩

theorem batchStep_processed (st : Sys) (op : BatchOp) (q : Option Int)
    (b : String) (acc : BatchResult) :
    ((batchStep st op q b acc).2.2).processed = acc.processed + 1 := by
  unfold batchStep
  obtain ⟨st1, tr1, o, he⟩ := batchRunOp_ok st op q b
  rw [he]
  cases o with
  | none => rfl
  | some r =>
      dsimp only
      split <;> rfl

theorem batchLoop_processed (op : BatchOp) (q : Option Int) (bs : List String) :
    ∀ st acc, ((batchLoop st op q bs acc).2.2).processed = acc.processed + bs.length := by
  induction bs with
  | nil => intro st acc; rfl
  | cons b bs ih =>
      intro st acc
      unfold batchLoop
      rcases hs : batchStep st op q b acc with ⟨st1, tr1, acc1⟩
      have h1 := batchStep_processed st op q b acc
      rw [hs] at h1
      simp only at h1
      rcases hl : batchLoop st1 op q bs acc1 with ⟨st2, tr2, acc2⟩
      have h2 := ih st1 acc1
      rw [hl] at h2
      simp only at h2
      simp only [List.length_cons]
      rw [hl]
      dsimp only
      omega

theorem batchRunOp_unsupported (st : Sys) (op : BatchOp) (q : Option Int)
    (b : String) (h : unsupportedCombo op q) :
    batchRunOp st op q b = (st, [], Except.ok none) := by
  rcases h with h | ⟨h1, h2⟩
  · subst h
    rfl
  · rcases h1 with h1 | h1 <;> subst h1 <;> simp [batchRunOp, h2]

theorem batchStep_unsupported (st : Sys) (op : BatchOp) (q : Option Int)
    (b : String) (acc : BatchResult) (h : unsupportedCombo op q) :
    batchStep st op q b acc =
      (st, [],
       { acc with processed := acc.processed + 1, failed := acc.failed + 1,
                  items := acc.items ++ [.undef, .err b Err.undefinedAccess.message] }) := by
  unfold batchStep
  rw [batchRunOp_unsupported st op q b h]

theorem batchLoop_unsupported (op : BatchOp) (q : Option Int)
    (h : unsupportedCombo op q) (bs : List String) :
    ∀ st acc, batchLoop st op q bs acc =
      (st, [],
       { processed := acc.processed + bs.length, succeeded := acc.succeeded,
         failed := acc.failed + bs.length,
         items := acc.items ++ failItems bs }) := by
  induction bs with
  | nil =>
      intro st acc
      simp [batchLoop, failItems]
  | cons b bs ih =>
      intro st acc
      unfold batchLoop
      rw [batchStep_unsupported st op q b acc h]
      dsimp only
      rw [ih]
      simp only [Prod.mk.injEq, BatchResult.mk.injEq, List.length_cons, failItems,
        List.append_assoc, List.cons_append, List.nil_append, true_and, and_true]
      omega

/-- C7: the batch call never raises (the record of tallies is always
returned), every barcode of the batch is processed — one item failure never
aborts the rest — and a batch whose operation+quantity combination is
unsupported reports every item as failed (each contributing its caught-error
entry), rather than throwing. -/
theorem C7_batch_isolates_failures :
    (∀ st bs op q, ∃ st2 tr res,
        batchScan st bs op q = (st2, tr, Except.ok res) ∧
        res.processed = bs.length) ∧
    (∀ st bs op q, unsupportedCombo op q →
        batchScan st bs op q =
          (st, [], Except.ok
            { processed := bs.length, succeeded := 0, failed := bs.length,
              items := failItems bs })) := by
  constructor
  · intro st bs op q
    unfold batchScan
    rcases hl : batchLoop st op q bs { processed := 0, succeeded := 0, failed := 0, items := [] } with ⟨st1, tr1, acc⟩
    have h := batchLoop_processed op q bs st { processed := 0, succeeded := 0, failed := 0, items := [] }
    rw [hl] at h
    simp only at h
    exact ⟨st1, tr1, acc, rfl, by simpa using h⟩
  · intro st bs op q h
    unfold batchScan
    rw [batchLoop_unsupported op q h bs st]
    simp

/-- Witness for C7 at a concrete unsupported batch: operation `count` with no
quantity over two barcodes. -/
theorem C7_batch_isolates_failures_witness :
    unsupportedCombo BatchOp.count none ∧
    batchScan sysC1 ["ABC1", "ZZZ"] BatchOp.count none =
      (sysC1, [], Except.ok
        { processed := 2, succeeded := 0, failed := 2,
          items := failItems ["ABC1", "ZZZ"] }) :=
  ⟨Or.inl rfl,
   C7_batch_isolates_failures.2 sysC1 ["ABC1", "ZZZ"] BatchOp.count none (Or.inl rfl)⟩

/-- C10: none of the four public scan operations lets an exception escape:
for every system state (every fault schedule of the external collaborators
included) and every input, each call returns a response value, and the
single-item operations always carry a non-empty explanatory message; failures
are reported through `success = false` responses rather than raised. -/
theorem C10_no_exception_escapes :
    (∀ st raw, ∃ st2 tr r,
        decodeScan st raw = (st2, tr, Except.ok r) ∧ r.message ≠ "") ∧
    (∀ st b q uid, ∃ st2 tr r,
        quickAdd st b q uid = (st2, tr, Except.ok r) ∧ r.message ≠ "") ∧
    (∀ st b q sup uid, ∃ st2 tr r,
        receiveInventory st b q sup uid = (st2, tr, Except.ok r) ∧ r.message ≠ "") ∧
    (∀ st bs op q, ∃ st2 tr res, batchScan st bs op q = (st2, tr, Except.ok res)) :=
  ⟨decodeScan_total, quickAdd_total, receiveInventory_total, batchScan_total⟩

/-- Success never survives a non-positive quantity: every quickAdd response
for `q ≤ 0` reports failure. -/
theorem quickAddBody_nonpos_success (st : Sys) (b : String) (q : Int)
    (uid : String) (hq : q ≤ 0) :
    ∀ {r : QuickAddResponse},
      (quickAddBody st b q uid).2.2 = Except.ok r → r.success = false := by
  unfold quickAddBody
  dsimp only
  repeat' split
  all_goals intro r h
  all_goals simp at h
  all_goals try (cases h; rfl)
  all_goals simp_all [Inventory.addStock, hq]

/-- Success never survives a non-positive quantity: every quickAdd response
for `q ≤ 0` reports failure. -/
theorem quickAdd_nonpos_success (st : Sys) (b : String) (q : Int) (uid : String)
    (hq : q ≤ 0) :
    ∀ {r : QuickAddResponse},
      (quickAdd st b q uid).2.2 = Except.ok r → r.success = false := by
  unfold quickAdd
  rcases hb : quickAddBody st b q uid with ⟨st1, tr1, x⟩
  cases x with
  | error e =>
      intro r h
      simp at h
      cases h
      rfl
  | ok r0 =>
      intro r h
      simp at h
      cases h
      exact quickAddBody_nonpos_success st b q uid hq (by rw [hb])

/-- C6: for every quantity `q ≤ 0`, `addStock` fails with `InvalidQuantity`
(leaving the inventory unchanged — no new record is produced), and the
quickAdd path wrapping it always returns a `success = false` response and
leaves the durable store untouched. -/
theorem C6_nonpositive_quantity_rejected (q : Int) (hq : q ≤ 0) :
    (∀ inv : Inventory, inv.addStock q = Except.error Err.invalidQuantity) ∧
    (∀ st b uid, ∃ st2 tr r, quickAdd st b q uid = (st2, tr, Except.ok r) ∧
        r.success = false ∧ st2.store = st.store) := by
  constructor
  · intro inv
    simp [Inventory.addStock, hq]
  · intro st b uid
    obtain ⟨st2, tr, r, he, _⟩ := quickAdd_total st b q uid
    refine ⟨st2, tr, r, he, ?_, ?_⟩
    · refine quickAdd_nonpos_success st b q uid hq ?_
      rw [he]
    · have h := quickAdd_store st b q uid
      rw [he] at h
      exact h

/-- Witness for C6 at quantity `-1` on the concrete one-product system. -/
theorem C6_nonpositive_quantity_rejected_witness :
    ((-1 : Int) ≤ 0) ∧
    (({ quantityOnHand := 0, quantityReserved := 0, reorderLevel := 10,
        reorderQuantity := 50 } : Inventory).addStock (-1) =
      Except.error Err.invalidQuantity) ∧
    (∃ st2 tr r, quickAdd sysC1 "ABC1" (-1) "u" = (st2, tr, Except.ok r) ∧
        r.success = false ∧ st2.store = sysC1.store) := by
  have h := C6_nonpositive_quantity_rejected (-1) (by decide)
  exact ⟨by decide, h.1 _, h.2 sysC1 "ABC1" "u"⟩

/-- Witness for C2: a concrete completed execution with one caller — it
claims the flight and computes — reached from the all-miss initial state; the
theorem applied to it yields one invocation and the computed result. -/
theorem C2_getOrSet_single_flight_witness :
    ∃ g : SingleFlight.GS 1,
      SingleFlight.Reach (SingleFlight.Outcome.ok 42) g ∧
      g.invocations = 1 ∧
      ∀ i, (g.callers i).res = some (SingleFlight.Outcome.ok 42) := by
  have hre := SingleFlight.Reach.step (SingleFlight.Reach.step
      (@SingleFlight.Reach.init (SingleFlight.Outcome.ok 42) 1)
      (SingleFlight.Step.claim _ ⟨0, Nat.zero_lt_one⟩ rfl rfl rfl))
      (SingleFlight.Step.compute _ ⟨0, Nat.zero_lt_one⟩ (by decide))
  have h := C2_getOrSet_single_flight _ _ hre (by decide) Nat.zero_lt_one
  exact ⟨_, hre, h.1, h.2⟩

/-! ## C5: decodeScan lookup structure -/

theorem cacheGetP_nofault (st : Sys) (k : String) (hnf : st.faults = []) :
    cacheGetP st k = (st, [Ev.cacheGet k], Except.ok (cacheLookup st.cache k)) := by
  unfold cacheGetP takeFault
  rw [hnf]
  rfl

theorem storeFindByBarcodeP_nofault (st : Sys) (b : String) (hnf : st.faults = []) :
    storeFindByBarcodeP st b =
      (st, [Ev.storeFindByBarcode b],
       Except.ok (st.store.find? (fun sp => sp.barcode == b))) := by
  unfold storeFindByBarcodeP takeFault
  rw [hnf]
  rfl

theorem decodeScan_trace (st : Sys) (raw : String) :
    outTrace (decodeScan st raw) = (decodeScanBody st raw).2.1 := by
  unfold decodeScan outTrace
  rcases hb : decodeScanBody st raw with ⟨st1, tr1, x⟩
  try rw [hb]
  cases x <;> rfl

theorem decodeScanBody_trace_shape (st : Sys) (raw : String)
    (hnf : st.faults = [])
    (hmiss : cacheLookup st.cache ("scan:product:" ++ raw) = none) :
    ∃ tail, (decodeScanBody st raw).2.1 =
      Ev.cacheGet ("scan:product:" ++ raw) ::
        ((getProductByBarcode st raw).2.1 ++ tail) := by
  unfold decodeScanBody
  try dsimp only
  rw [decode_rawValue, cacheGetP_nofault st _ hnf, hmiss]
  try dsimp only
  rcases hg : getProductByBarcode st raw with ⟨st2, tr2, x⟩
  try rw [hg]
  cases x with
  | error e => exact ⟨[], by simp⟩
  | ok w =>
      cases w with
      | none => exact ⟨(logScan st2 "lookup").2, by simp⟩
      | some p =>
          try dsimp only
          rcases hset : cacheSetP st2 ("scan:product:" ++ raw) (CacheVal.prod p) 1800 with ⟨st3, tr3, z⟩
          try rw [hset]
          cases z with
          | error e => exact ⟨tr3, by simp⟩
          | ok u => exact ⟨tr3 ++ (logScan st3 "lookup").2, by simp⟩

theorem getOrSetProductP_trace_head (st : Sys) (key : String) (ttl : Nat)
    (compute : Sys → Res (Option Product)) (hnf : st.faults = []) :
    ∃ tail, (getOrSetProductP st key ttl compute).2.1 = Ev.cacheGet key :: tail := by
  unfold getOrSetProductP
  rw [cacheGetP_nofault st key hnf]
  rcases hcl : cacheLookup st.cache key with _ | cv
  · try simp only [hcl]
    rcases hc2 : compute st with ⟨st2, tr2, y⟩
    try simp only [hc2]
    cases y with
    | error e => exact ⟨tr2, rfl⟩
    | ok w =>
        cases w with
        | none => exact ⟨tr2, rfl⟩
        | some p =>
            rcases hset : cacheSetP st2 key (CacheVal.prod p) ttl with ⟨st3, tr3, z⟩
            try simp only [hset]
            cases z with
            | error e => exact ⟨tr2 ++ tr3, by simp⟩
            | ok u => exact ⟨tr2 ++ tr3, by simp⟩
  · cases cv with
    | prod p =>
        try simp only [hcl]
        exact ⟨[], rfl⟩
    | num n =>
        try simp only [hcl]
        rcases hc2 : compute st with ⟨st2, tr2, y⟩
        try simp only [hc2]
        cases y with
        | error e => exact ⟨tr2, rfl⟩
        | ok w =>
            cases w with
            | none => exact ⟨tr2, rfl⟩
            | some p =>
                rcases hset : cacheSetP st2 key (CacheVal.prod p) ttl with ⟨st3, tr3, z⟩
                try simp only [hset]
                cases z with
                | error e => exact ⟨tr2 ++ tr3, by simp⟩
                | ok u => exact ⟨tr2 ++ tr3, by simp⟩

theorem getOrSetProductP_trace_miss (st : Sys) (key : String) (ttl : Nat)
    (compute : Sys → Res (Option Product)) (hnf : st.faults = [])
    (hm0 : cacheLookup st.cache key = none) :
    ∃ tail, (getOrSetProductP st key ttl compute).2.1 =
      Ev.cacheGet key :: ((compute st).2.1 ++ tail) := by
  unfold getOrSetProductP
  rw [cacheGetP_nofault st key hnf, hm0]
  rcases hc2 : compute st with ⟨st2, tr2, y⟩
  try simp only [hc2]
  cases y with
  | error e => exact ⟨[], by simp⟩
  | ok w =>
      cases w with
      | none => exact ⟨[], by simp⟩
      | some p =>
          rcases hset : cacheSetP st2 key (CacheVal.prod p) ttl with ⟨st3, tr3, z⟩
          try simp only [hset]
          cases z with
          | error e => exact ⟨tr3, by simp⟩
          | ok u => exact ⟨tr3, by simp⟩

theorem getProductByBarcode_mem_get (st : Sys) (b : String) (hnf : st.faults = []) :
    Ev.cacheGet ("product:barcode:" ++ normalize b) ∈ (getProductByBarcode st b).2.1 := by
  unfold getProductByBarcode
  obtain ⟨tail, htr⟩ :=
    getOrSetProductP_trace_head st ("product:barcode:" ++ normalize b) 3600
      (fun st0 =>
        match storeFindByBarcodeP st0 (normalize b) with
        | (st1, tr1, .error e) => (st1, tr1, .error e)
        | (st1, tr1, .ok none) => (st1, tr1, .ok none)
        | (st1, tr1, .ok (some sp)) =>
            let (st2, p) := materialize st1 sp
            (st2, tr1, .ok (some p))) hnf
  rw [htr]
  exact List.mem_cons_self _ _

theorem getProductByBarcode_mem_find (st : Sys) (b : String) (hnf : st.faults = [])
    (hmiss2 : cacheLookup st.cache ("product:barcode:" ++ normalize b) = none) :
    Ev.storeFindByBarcode (normalize b) ∈ (getProductByBarcode st b).2.1 := by
  unfold getProductByBarcode
  obtain ⟨tail, htr⟩ :=
    getOrSetProductP_trace_miss st ("product:barcode:" ++ normalize b) 3600
      (fun st0 =>
        match storeFindByBarcodeP st0 (normalize b) with
        | (st1, tr1, .error e) => (st1, tr1, .error e)
        | (st1, tr1, .ok none) => (st1, tr1, .ok none)
        | (st1, tr1, .ok (some sp)) =>
            let (st2, p) := materialize st1 sp
            (st2, tr1, .ok (some p))) hnf hmiss2
  rw [htr]
  refine List.mem_cons_of_mem _ (List.mem_append_left _ ?_)
  dsimp only
  rw [storeFindByBarcodeP_nofault st _ hnf]
  rcases hfind : st.store.find? (fun sp => sp.barcode == normalize b) with _ | sp
  · try simp only [hfind]
    simp
  · try simp only [hfind]
    simp

/-- C5 (amended): on a miss of its own raw-keyed `scan:product:<raw>` cache
entry, decodeScan falls back to `getProductByBarcode`, which performs the §4.3
cache-aside lookup under `product:barcode:<normalized>`; when that entry is
also absent, the durable store is queried by the normalized barcode. -/
theorem C5_decodeScan_two_level_lookup (st : Sys) (raw : String)
    (hnf : st.faults = [])
    (hmiss : cacheLookup st.cache ("scan:product:" ++ raw) = none) :
    Ev.cacheGet ("product:barcode:" ++ normalize raw) ∈ outTrace (decodeScan st raw) ∧
    (cacheLookup st.cache ("product:barcode:" ++ normalize raw) = none →
      Ev.storeFindByBarcode (normalize raw) ∈ outTrace (decodeScan st raw)) := by
  obtain ⟨tail, htr⟩ := decodeScanBody_trace_shape st raw hnf hmiss
  rw [decodeScan_trace st raw, htr]
  constructor
  · exact List.mem_cons_of_mem _
      (List.mem_append_left _ (getProductByBarcode_mem_get st raw hnf))
  · intro h2
    exact List.mem_cons_of_mem _
      (List.mem_append_left _ (getProductByBarcode_mem_find st raw hnf h2))

/-- Witness for C5 (amended) on the empty system and the raw barcode
`abc`. -/
theorem C5_decodeScan_two_level_lookup_witness :
    sysC9.faults = [] ∧
    cacheLookup sysC9.cache ("scan:product:" ++ "abc") = none ∧
    (Ev.cacheGet ("product:barcode:" ++ normalize "abc") ∈
        outTrace (decodeScan sysC9 "abc") ∧
      (cacheLookup sysC9.cache ("product:barcode:" ++ normalize "abc") = none →
        Ev.storeFindByBarcode (normalize "abc") ∈ outTrace (decodeScan sysC9 "abc"))) :=
  ⟨rfl, rfl, C5_decodeScan_two_level_lookup sysC9 "abc" rfl rfl⟩

end ScanCore
